import Mathlib

/-!
Verification of the text-extraction and pipeline-orchestration core of the
Text-to-Speech integration repository (`tts_integration.py`), with a
spec-modelled dotted-path extractor for the advanced integration module that
the repository's examples import.

Python JSON values are embedded as the inductive `JSONValue`; Python dicts
are ordered association lists (insertion order preserved, as in CPython);
Python exceptions are modelled with `Except PyErr`.
-/

namespace TTS

/-- A decoded JSON value, as produced by `response.json()`.  Numbers are
modelled as integers; mappings are insertion-ordered association lists,
matching CPython dict iteration order. -/
inductive JSONValue where
  | null : JSONValue
  | bool : Bool → JSONValue
  | num : Int → JSONValue
  | str : String → JSONValue
  | arr : List JSONValue → JSONValue
  | obj : List (String × JSONValue) → JSONValue

/-- Python exceptions that the embedded code can raise. -/
inductive PyErr where
  | typeError : PyErr
  | valueError : PyErr
deriving Repr, DecidableEq

/-- Python truthiness of a JSON value (`if not data`, `if result`, ...):
`None`, `False`, `0`, `""`, `[]` and `{}` are falsy, everything else truthy. -/
def truthy : JSONValue → Bool
  | .null => false
  | .bool b => b
  | .num n => n != 0
  | .str s => s != ""
  | .arr xs => !xs.isEmpty
  | .obj kvs => !kvs.isEmpty

/-- Association-list lookup: `text_key in data` / `data[text_key]`. -/
def lookup : List (String × JSONValue) → String → Option JSONValue
  | [], _ => none
  | (k, v) :: rest, tk => if k == tk then some v else lookup rest tk

/-- `isinstance(value, (dict, list))`. -/
def isContainer : JSONValue → Bool
  | .arr _ => true
  | .obj _ => true
  | _ => false

/-- Whether the value is a Python `str`. -/
def isStr : JSONValue → Bool
  | .str _ => true
  | _ => false

/-- The underlying string of a string value (unused elsewhere). -/
def getStr : JSONValue → String
  | .str s => s
  | _ => ""

/-- Python `" ".join(all_text)`: raises `TypeError` unless every element is a
`str`; otherwise joins them with single spaces. -/
def joinAll (xs : List JSONValue) : Except PyErr JSONValue :=
  if xs.all isStr then .ok (.str (String.intercalate " " (xs.map getStr)))
  else .error .typeError

mutual

/-- `TTSIntegration.extract_text(data, text_key)` from `tts_integration.py`
(lines 57-97): empty/falsy data returns `""`; a dict is checked for
`text_key` as a direct key (the raw value is returned), else its members are
searched recursively in insertion order; a list collects the truthy
extractions of its elements and joins them with `" ".join` (which raises
`TypeError` on non-`str` items); scalars fall through to `return ""`. -/
def extract_text : JSONValue → String → Except PyErr JSONValue
  | data, tk =>
    if truthy data = false then .ok (.str "")
    else
      match data with
      | .obj kvs =>
        match lookup kvs tk with
        | some v => .ok v
        | none => searchMembers kvs tk
      | .arr items =>
        match collectItems items tk with
        | .error e => .error e
        | .ok allText => joinAll allText
      | _ => .ok (.str "")

/-- The `for key, value in data.items()` loop of `extract_text`: recurse into
each dict/list member in insertion order and return the first truthy result;
a member that is neither dict nor list is returned when its key equals
`text_key` (dead when keys are unique); otherwise fall through to `""`. -/
def searchMembers : List (String × JSONValue) → String → Except PyErr JSONValue
  | [], _ => .ok (.str "")
  | (k, v) :: rest, tk =>
    if isContainer v then
      match extract_text v tk with
      | .error e => .error e
      | .ok result =>
        if truthy result then .ok result else searchMembers rest tk
    else if k == tk then .ok v
    else searchMembers rest tk

/-- The `for item in data` loop of `extract_text`'s list branch: extract from
each element in order, keeping the truthy results (`all_text`). -/
def collectItems : List JSONValue → String → Except PyErr (List JSONValue)
  | [], _ => .ok []
  | item :: rest, tk =>
    match extract_text item tk with
    | .error e => .error e
    | .ok extracted =>
      match collectItems rest tk with
      | .error e => .error e
      | .ok tail => .ok (if truthy extracted then extracted :: tail else tail)

end

/-- Python `s.endswith(t)`, modelled on the character list. -/
def str_endswith (s t : String) : Bool :=
  t.data.isSuffixOf s.data

/-- Python truthiness of an optional string (`None` and `""` are falsy). -/
def strFalsy : Option String → Bool
  | none => true
  | some s => s == ""

/-- Python `a or b` on optional strings: `b` when `a` is falsy, else `a`. -/
def py_or (a b : Option String) : Option String :=
  if strFalsy a then b else a

/-- `TTSIntegration.fetch_data(api_url)` (lines 34-55): `url = api_url or
self.api_url`; a falsy url raises `ValueError`; otherwise the outcome of the
HTTP request is abstracted by `requestResult` — the decoded JSON body on
success, `none` when a `requests.exceptions.RequestException` was caught
(the `except` branch prints and returns `None`). -/
def fetch_data (self_api_url api_url : Option String)
    (requestResult : Option JSONValue) : Except PyErr (Option JSONValue) :=
  if strFalsy (py_or api_url self_api_url) then .error .valueError
  else .ok requestResult

/-- The filename derivation of `TTSIntegration.text_to_speech` (lines
115-122): a falsy `filename` is replaced by `tts_output_<timestamp>`, then
`.mp3` is appended when the name does not already end with it. -/
def derive_filename (filename : Option String) (timestamp : Nat) : String :=
  let f := match filename with
    | none => "tts_output_" ++ toString timestamp
    | some s => if s == "" then "tts_output_" ++ toString timestamp else s
  if str_endswith f ".mp3" then f else f ++ ".mp3"

/-- `os.path.join(self.output_dir, filename)`: an absolute second component
replaces the first; an empty first component contributes nothing; otherwise
the components are joined with a single separator. -/
def path_join (dir f : String) : String :=
  if f.startsWith "/" then f
  else if dir == "" then f
  else if str_endswith dir "/" then dir ++ f
  else dir ++ "/" ++ f

/-- `TTSIntegration.text_to_speech(text, filename, lang)` (lines 99-134):
falsy text returns `None`; otherwise the output path is derived and the
`gTTS(...).save(...)` call — abstracted by the oracle `synthOk` — either
succeeds (the path is returned) or raises (caught, `None` returned).  The
`text` argument is whatever `extract_text` returned, not necessarily a
string. -/
def text_to_speech (output_dir : String) (text : JSONValue)
    (filename : Option String) (timestamp : Nat) (synthOk : Bool) :
    Option String :=
  if truthy text = false then none
  else
    let path := path_join output_dir (derive_filename filename timestamp)
    if synthOk then some path else none

/-- Observable outcome of `TTSIntegration.play_audio` (lines 136-155): the
file-existence guard returns early; a pygame error is caught and only
logged.  In every case the function returns `None` to its caller. -/
inductive PlayStatus where
  | fileMissing : PlayStatus
  | played : PlayStatus
  | errorSwallowed : PlayStatus
deriving Repr, DecidableEq

/-- `TTSIntegration.play_audio(audio_file)`: report what happened; nothing is
returned to the pipeline. -/
def play_audio (fileExists playbackOk : Bool) : PlayStatus :=
  if fileExists = false then .fileMissing
  else if playbackOk then .played
  else .errorSwallowed

/-- The line `print(f"Extracted text: {text[:100]}..." if len(text) > 100
else ...)` (line 184): `len` raises `TypeError` on numbers and booleans, and
slicing a dict raises `TypeError` (only evaluated when its length exceeds
100); strings and lists print fine. -/
def print_excerpt : JSONValue → Except PyErr Unit
  | .str _ => .ok ()
  | .arr _ => .ok ()
  | .obj kvs => if kvs.length > 100 then .error .typeError else .ok ()
  | _ => .error .typeError

/-- Inputs and environment of one `process_pipeline` invocation: the
constructor-time and call-time URLs, the abstracted network outcome, the
configuration, and the oracles for synthesis success, saved-file existence
and playback success. -/
structure PipelineEnv where
  self_api_url : Option String
  api_url : Option String
  requestResult : Option JSONValue
  output_dir : String
  text_key : String
  output_filename : Option String
  timestamp : Nat
  synthOk : Bool
  savedFileExists : Bool
  playbackOk : Bool

/-- Observable outcome of `process_pipeline`: the returned value
(`audio_file`, possibly `None`), whether `text_to_speech` was invoked, and
what the optional playback step did (`none` when `play_audio` was not
invoked). -/
structure PipelineOutcome where
  audio_file : Option String
  synthCalled : Bool
  playStatus : Option PlayStatus
deriving Repr, DecidableEq

/-- `TTSIntegration.process_pipeline(api_url, text_key, output_filename,
lang)` (lines 157-193): fetch (may raise `ValueError` for a missing URL);
`if not data` returns `None`; extract (may raise from `" ".join`); `if not
text` returns `None`; the excerpt print (may raise on non-string text);
synthesis; `if audio_file and os.path.exists(audio_file)` guards playback;
`audio_file` is returned regardless of what playback did. -/
def process_pipeline (env : PipelineEnv) : Except PyErr PipelineOutcome :=
  match fetch_data env.self_api_url env.api_url env.requestResult with
  | .error e => .error e
  | .ok dataOpt =>
    match dataOpt with
    | none => .ok ⟨none, false, none⟩
    | some data =>
      if truthy data = false then .ok ⟨none, false, none⟩
      else
        match extract_text data env.text_key with
        | .error e => .error e
        | .ok text =>
          if truthy text = false then .ok ⟨none, false, none⟩
          else
            match print_excerpt text with
            | .error e => .error e
            | .ok _ =>
              match text_to_speech env.output_dir text env.output_filename
                  env.timestamp env.synthOk with
              | some f =>
                if (f != "") && env.savedFileExists then
                  .ok ⟨some f, true, some (play_audio true env.playbackOk)⟩
                else
                  .ok ⟨some f, true, none⟩
              | none => .ok ⟨none, true, none⟩

/-- Joining two already-joined text fragments with a single space, skipping
empty fragments. -/
def space_join (a b : String) : String :=
  if a == "" then b else if b == "" then a else a ++ " " ++ b

/-- Splitting a character list at `.` characters, accumulating the current
segment: the semantics of Python `pathKey.split('.')`. -/
def split_path_aux : List Char → List Char → List String
  | [], acc => [String.mk acc.reverse]
  | c :: rest, acc =>
    if c = '.' then String.mk acc.reverse :: split_path_aux rest []
    else split_path_aux rest (c :: acc)

/-- Modelled from the spec: splitting the path key on `.` (spec section 4.1,
step 2) for the dotted-path extractor of the advanced integration module
(`advanced_tts_integration.py`, imported by `advanced_example.py` and
`news_example.py` but not present in this tree). -/
def split_path (p : String) : List String := split_path_aux p.data []

/-- Modelled from the spec: parsing a path segment as a non-negative integer
sequence index (spec section 4.1 step 2). -/
def parse_index (s : String) : Option Nat :=
  if s.data.isEmpty then none
  else if s.data.all (fun c => c.isDigit) then
    some (s.data.foldl (fun n c => n * 10 + (c.toNat - 48)) 0)
  else none

mutual

/-- Modelled from the spec: the leaf-text concatenation of spec section 4.1
steps 3-5 — scalars are stringified (null contributes nothing), containers
concatenate the leaf text of their members in order, space separated. -/
def leaf_text : JSONValue → String
  | .null => ""
  | .bool b => if b then "True" else "False"
  | .num n => toString n
  | .str s => s
  | .arr xs => leaf_text_list xs
  | .obj kvs => leaf_text_kvs kvs

/-- Modelled from the spec: leaf text of a sequence, element order kept. -/
def leaf_text_list : List JSONValue → String
  | [] => ""
  | x :: rest => space_join (leaf_text x) (leaf_text_list rest)

/-- Modelled from the spec: leaf text of a mapping, insertion order kept. -/
def leaf_text_kvs : List (String × JSONValue) → String
  | [] => ""
  | (_, v) :: rest => space_join (leaf_text v) (leaf_text_kvs rest)

end

/-- Modelled from the spec: coercion of a matched value (spec section 4.1
steps 3 and 5) — numbers and booleans stringified, null treated as absent,
mapping/sequence values replaced by their concatenated leaf text. -/
def coerce_text : JSONValue → Option String
  | .null => none
  | .bool b => some (if b then "True" else "False")
  | .num n => some (toString n)
  | .str s => some s
  | .arr xs => some (leaf_text_list xs)
  | .obj kvs => some (leaf_text_kvs kvs)

/-- Modelled from the spec: structured dotted-path resolution (spec section
4.1 step 2) — walk the value segment by segment, descending into a matching
mapping key or a parsed sequence index; any mismatch yields not-found. -/
def structured_resolve : JSONValue → List String → Option JSONValue
  | v, [] => some v
  | .obj kvs, seg :: rest =>
    match lookup kvs seg with
    | some v => structured_resolve v rest
    | none => none
  | .arr xs, seg :: rest =>
    match parse_index seg with
    | some i =>
      match xs[i]? with
      | some v => structured_resolve v rest
      | none => none
    | none => none
  | _, _ :: _ => none

mutual

/-- Modelled from the spec: the unstructured recursive fallback search (spec
section 4.1 step 3) of the advanced integration module's extractor — a
direct key match is returned coerced (null absent), else every
mapping/sequence member is searched in order, first success wins. -/
def spec_search : JSONValue → String → String
  | .obj kvs, p =>
    match lookup kvs p with
    | some v =>
      match coerce_text v with
      | some s => s
      | none => spec_search_members kvs p
    | none => spec_search_members kvs p
  | .arr xs, p => spec_search_seq xs p
  | _, _ => ""

/-- Modelled from the spec: the member loop of the fallback search, in
insertion order, first success wins. -/
def spec_search_members : List (String × JSONValue) → String → String
  | [], _ => ""
  | (_, v) :: rest, p =>
    if isContainer v then
      let r := spec_search v p
      if r == "" then spec_search_members rest p else r
    else spec_search_members rest p

/-- Modelled from the spec: the sequence case (spec section 4.1 step 4) —
recurse into each element in order, join non-empty results with single
spaces. -/
def spec_search_seq : List JSONValue → String → String
  | [], _ => ""
  | x :: rest, p => space_join (spec_search x p) (spec_search_seq rest p)

end

/-- Modelled from the spec: `extract(value, pathKey)` of the advanced
integration module (spec section 4.1) — empty path is not found; structured
dotted-path resolution is attempted first and its result coerced; on any
failure the unstructured recursive fallback search runs. -/
def spec_extract (v : JSONValue) (p : String) : String :=
  if p == "" then ""
  else
    match structured_resolve v (split_path p) with
    | some r =>
      match coerce_text r with
      | some s => s
      | none => spec_search v p
    | none => spec_search v p

mutual

/-- Whether the path key occurs as a mapping key anywhere inside the value:
the notion of "a match for the key exists at some depth". -/
def hasKey : JSONValue → String → Bool
  | .obj kvs, p => hasKeyKvs kvs p
  | .arr xs, p => hasKeyList xs p
  | _, _ => false

/-- `hasKey` over the entries of a mapping. -/
def hasKeyKvs : List (String × JSONValue) → String → Bool
  | [], _ => false
  | (k, v) :: rest, p => k == p || hasKey v p || hasKeyKvs rest p

/-- `hasKey` over the elements of a sequence. -/
def hasKeyList : List JSONValue → String → Bool
  | [], _ => false
  | x :: rest, p => hasKey x p || hasKeyList rest p

end

/-- First truthy (or raising) outcome in a list of extraction outcomes;
`""` when none is truthy — the shape of the dict member search. -/
def first_truthy : List (Except PyErr JSONValue) → Except PyErr JSONValue
  | [] => .ok (.str "")
  | .error e :: _ => .error e
  | .ok v :: rs => if truthy v then .ok v else first_truthy rs

/-- The per-element extractions of a sequence, defined when every element
extracts without raising to a string value. -/
def extract_results : List JSONValue → String → Option (List String)
  | [], _ => some []
  | item :: rest, p =>
    match extract_text item p with
    | .ok (.str s) =>
      match extract_results rest p with
      | some ss => some (s :: ss)
      | none => none
    | _ => none

/-- Replacing only the playback-success oracle of a pipeline environment. -/
def setPlayback (env : PipelineEnv) (b : Bool) : PipelineEnv :=
  ⟨env.self_api_url, env.api_url, env.requestResult, env.output_dir,
    env.text_key, env.output_filename, env.timestamp, env.synthOk,
    env.savedFileExists, b⟩

end TTS

namespace TTS

theorem lookup_eq_none (kvs : List (String × JSONValue)) (p : String)
    (h : hasKeyKvs kvs p = false) : lookup kvs p = none := by
  induction kvs with
  | nil => rfl
  | cons kv rest ih =>
    obtain ⟨k, v⟩ := kv
    simp only [hasKeyKvs, Bool.or_eq_false_iff] at h
    simp only [lookup, h.1.1, Bool.false_eq_true, if_false]
    exact ih h.2

mutual

theorem extract_noMatch_aux (v : JSONValue) (p : String)
    (h : hasKey v p = false) : extract_text v p = .ok (.str "") := by
  match v with
  | .null => rfl
  | .bool b => simp only [extract_text]; split <;> rfl
  | .num n => simp only [extract_text]; split <;> rfl
  | .str s => simp only [extract_text]; split <;> rfl
  | .arr xs =>
    simp only [hasKey] at h
    simp only [extract_text]
    split
    · rfl
    · rw [collect_noMatch_aux xs p h]
      rfl
  | .obj kvs =>
    simp only [hasKey] at h
    simp only [extract_text]
    split
    · rfl
    · rw [lookup_eq_none kvs p h]
      exact search_noMatch_aux kvs p h

theorem search_noMatch_aux (kvs : List (String × JSONValue)) (p : String)
    (h : hasKeyKvs kvs p = false) : searchMembers kvs p = .ok (.str "") := by
  match kvs with
  | [] => rfl
  | (k, v) :: rest =>
    simp only [hasKeyKvs, Bool.or_eq_false_iff] at h
    simp only [searchMembers]
    split
    · rw [extract_noMatch_aux v p h.1.2]
      simp only [truthy]
      simp
      exact search_noMatch_aux rest p h.2
    · rw [if_neg (by simp [h.1.1])]
      exact search_noMatch_aux rest p h.2

theorem collect_noMatch_aux (xs : List JSONValue) (p : String)
    (h : hasKeyList xs p = false) : collectItems xs p = .ok [] := by
  match xs with
  | [] => rfl
  | x :: rest =>
    simp only [hasKeyList, Bool.or_eq_false_iff] at h
    simp only [collectItems]
    rw [extract_noMatch_aux x p h.1, collect_noMatch_aux rest p h.2]
    simp [truthy]

end

theorem search_eq_first_truthy (kvs : List (String × JSONValue)) (p : String)
    (h : lookup kvs p = none) :
    searchMembers kvs p =
      first_truthy ((kvs.filter (fun kv => isContainer kv.2)).map
        (fun kv => extract_text kv.2 p)) := by
  induction kvs with
  | nil => rfl
  | cons kv rest ih =>
    obtain ⟨k, v⟩ := kv
    simp only [lookup] at h
    have hk : (k == p) = false := by
      cases hkp : (k == p) with
      | false => rfl
      | true => rw [hkp] at h; simp at h
    rw [hk] at h
    simp only [Bool.false_eq_true, if_false] at h
    cases hc : isContainer v with
    | true =>
      simp only [searchMembers, hc, if_true, List.filter_cons, List.map_cons]
      cases hx : extract_text v p with
      | error e => simp [first_truthy]
      | ok r =>
        cases ht : truthy r with
        | true => simp [first_truthy, ht]
        | false => simp only [first_truthy, ht, Bool.false_eq_true, if_false]; exact ih h
    | false =>
      simp only [searchMembers, hc, Bool.false_eq_true, if_false, hk, List.filter_cons]
      exact ih h

theorem collect_eq_results (xs : List JSONValue) (p : String) (ss : List String)
    (h : extract_results xs p = some ss) :
    collectItems xs p = .ok ((ss.filter (fun s => s != "")).map JSONValue.str) := by
  induction xs generalizing ss with
  | nil =>
    simp only [extract_results, Option.some_inj] at h
    subst h
    rfl
  | cons x rest ih =>
    simp only [extract_results] at h
    rcases hx : extract_text x p with e | v <;> rw [hx] at h
    · simp at h
    · cases v with
      | str s =>
        rcases hr : extract_results rest p with _ | ss' <;> rw [hr] at h
        · simp at h
        · simp only [Option.some_inj] at h
          subst h
          simp only [collectItems, hx, ih ss' hr]
          by_cases hs : s = ""
          · subst hs; simp [truthy, List.filter_cons]
          · simp [truthy, hs, List.filter_cons]
      | null => simp at h
      | bool b => simp at h
      | num n => simp at h
      | arr ys => simp at h
      | obj kv => simp at h

theorem all_isStr_map (l : List String) : (l.map JSONValue.str).all isStr = true := by
  induction l with
  | nil => rfl
  | cons a t ih => simp [isStr, ih]

theorem map_getStr_map (l : List String) : l.map (getStr ∘ JSONValue.str) = l := by
  induction l with
  | nil => rfl
  | cons a t ih => simp only [List.map_cons, Function.comp_apply, getStr, ih]

theorem joinAll_map_str (l : List String) :
    joinAll (l.map JSONValue.str) = .ok (.str (String.intercalate " " l)) := by
  simp [joinAll, all_isStr_map, map_getStr_map]

/-- C1: for the input mapping `{"data":[{"title":"A"}]}` and path key
`"data.0.title"`, the dotted-path extraction splits the path on `.`, walks
into mapping key `"data"`, sequence index `0`, then mapping key `"title"`,
and returns `"A"`. -/
theorem spec_extract_structured_path :
    split_path "data.0.title" = ["data", "0", "title"] ∧
    structured_resolve (.obj [("data", .arr [.obj [("title", .str "A")]])])
      ["data", "0", "title"] = some (.str "A") ∧
    spec_extract (.obj [("data", .arr [.obj [("title", .str "A")]])])
      "data.0.title" = "A" :=
  ⟨rfl, rfl, rfl⟩

/-- C2 counterexample: `extract_text` can raise — on `[{"text": 5}]` with key
`"text"` the list branch collects the raw number `5` and `" ".join` raises
`TypeError`. -/
theorem extract_text_join_typeError :
    extract_text (.arr [.obj [("text", .num 5)]]) "text" = .error .typeError := by
  rfl

/-- C2 amended: whenever the path key occurs nowhere in the value as a
mapping key, `extract_text` returns the empty string (and raises nothing);
but on values where a sequence element extracts to a non-string, the
`" ".join` raises `TypeError`, so the never-raises half of the claim fails. -/
theorem extract_text_no_match_empty (v : JSONValue) (p : String)
    (h : hasKey v p = false) : extract_text v p = .ok (.str "") :=
  extract_noMatch_aux v p h

/-- Witness for the amended C2 theorem at a concrete no-match input. -/
theorem extract_text_no_match_empty_witness :
    hasKey (.obj [("a", .arr [.obj [("b", .str "c")]])]) "text" = false ∧
    extract_text (.obj [("a", .arr [.obj [("b", .str "c")]])]) "text" =
      .ok (.str "") :=
  ⟨rfl, extract_text_no_match_empty (.obj [("a", .arr [.obj [("b", .str "c")]])])
    "text" rfl⟩

/-- C4: on `{"a":{"b":{"text":"X"}}}` with the dot-free key `"text"` the
recursive fallback search returns `"X"`; in general, when the key is not a
direct member of a mapping, `extract_text` equals the first truthy recursive
extraction over the dict/list-valued members in insertion order. -/
theorem extract_text_fallback_first_success :
    extract_text (.obj [("a", .obj [("b", .obj [("text", .str "X")])])])
      "text" = .ok (.str "X") ∧
    ∀ (kvs : List (String × JSONValue)) (p : String), lookup kvs p = none →
      extract_text (.obj kvs) p =
        first_truthy ((kvs.filter (fun kv => isContainer kv.2)).map
          (fun kv => extract_text kv.2 p)) := by
  refine ⟨rfl, fun kvs p h => ?_⟩
  cases kvs with
  | nil => rfl
  | cons kv rest =>
    have h1 : extract_text (.obj (kv :: rest)) p = searchMembers (kv :: rest) p := by
      simp only [extract_text]
      rw [h]
      rfl
    rw [h1]
    exact search_eq_first_truthy (kv :: rest) p h

/-- Witness for the general part of the C4 theorem at a concrete input. -/
theorem extract_text_fallback_first_success_witness :
    lookup [("a", JSONValue.obj [("b", .obj [("text", .str "X")])])] "text" = none ∧
    extract_text (.obj [("a", .obj [("b", .obj [("text", .str "X")])])]) "text" =
      first_truthy
        (([("a", JSONValue.obj [("b", .obj [("text", .str "X")])])].filter
          (fun kv => isContainer kv.2)).map (fun kv => extract_text kv.2 "text")) :=
  ⟨rfl, extract_text_fallback_first_success.2
    [("a", JSONValue.obj [("b", .obj [("text", .str "X")])])] "text" rfl⟩

/-- C5: applied to a sequence whose elements each extract (without raising)
to a string, `extract_text` joins the non-empty extracted strings with
single spaces, preserving element order. -/
theorem extract_text_seq_space_join (xs : List JSONValue) (p : String)
    (ss : List String) (h : extract_results xs p = some ss) :
    extract_text (.arr xs) p =
      .ok (.str (String.intercalate " " (ss.filter (fun s => s != "")))) := by
  cases xs with
  | nil =>
    simp only [extract_results, Option.some_inj] at h
    subst h
    rfl
  | cons x rest =>
    have h1 : extract_text (.arr (x :: rest)) p =
        match collectItems (x :: rest) p with
        | .error e => .error e
        | .ok allText => joinAll allText := by
      simp only [extract_text]
      rfl
    rw [h1, collect_eq_results (x :: rest) p ss h]
    exact joinAll_map_str _

/-- Witness for the C5 theorem on `[{"text":"a"},{"text":"b"},{"text":"c"}]`. -/
theorem extract_text_seq_space_join_witness :
    extract_results [JSONValue.obj [("text", .str "a")],
      .obj [("text", .str "b")], .obj [("text", .str "c")]] "text" =
      some ["a", "b", "c"] ∧
    extract_text (.arr [.obj [("text", .str "a")], .obj [("text", .str "b")],
      .obj [("text", .str "c")]]) "text" = .ok (.str "a b c") := by
  refine ⟨rfl, ?_⟩
  have h := extract_text_seq_space_join [JSONValue.obj [("text", .str "a")],
    .obj [("text", .str "b")], .obj [("text", .str "c")]] "text"
    ["a", "b", "c"] rfl
  exact h.trans (by rfl)

/-- C6 counterexample: a direct-key match is returned raw, not coerced — on
`{"text": 5}` the extraction returns the number `5` itself, not the string
`"5"`. -/
theorem extract_text_returns_raw_value :
    extract_text (.obj [("text", .num 5)]) "text" = .ok (.num 5) ∧
    isStr (.num 5) = false :=
  ⟨rfl, rfl⟩

/-- C6 amended: when the path key is a direct key of a mapping, the matched
value is returned raw and uncoerced — numbers, booleans, null, mappings and
sequences are passed through exactly as they appear in the data. -/
theorem extract_text_direct_key_raw (kvs : List (String × JSONValue))
    (p : String) (v : JSONValue) (h : lookup kvs p = some v) :
    extract_text (.obj kvs) p = .ok v := by
  cases kvs with
  | nil => simp [lookup] at h
  | cons kv rest =>
    simp only [extract_text]
    rw [h]
    rfl

/-- Witness for the amended C6 theorem: the direct match `{"text": null}`
returns raw `null` (Python `None`), not a not-found signal. -/
theorem extract_text_direct_key_raw_witness :
    lookup [("text", JSONValue.null)] "text" = some .null ∧
    extract_text (.obj [("text", .null)]) "text" = .ok .null :=
  ⟨rfl, extract_text_direct_key_raw [("text", .null)] "text" .null rfl⟩

end TTS

namespace TTS

theorem endswith_append (s t : String) : str_endswith (s ++ t) t = true := by
  simp only [str_endswith, String.data_append]
  rw [List.isSuffixOf_iff_suffix]
  exact List.suffix_append s.data t.data

theorem extract_text_falsy (data : JSONValue) (p : String)
    (h : truthy data = false) : extract_text data p = .ok (.str "") := by
  cases data <;> simp only [extract_text, h, if_pos]

theorem pipeline_fetch_fail_aux (env : PipelineEnv)
    (hurl : strFalsy (py_or env.api_url env.self_api_url) = false)
    (hr : env.requestResult = none) :
    process_pipeline env = .ok ⟨none, false, none⟩ := by
  simp only [process_pipeline, fetch_data, hurl, Bool.false_eq_true, if_false, hr]

theorem pipeline_empty_text_aux (env : PipelineEnv) (data : JSONValue)
    (hurl : strFalsy (py_or env.api_url env.self_api_url) = false)
    (hr : env.requestResult = some data)
    (hx : extract_text data env.text_key = .ok (.str "")) :
    process_pipeline env = .ok ⟨none, false, none⟩ := by
  simp only [process_pipeline, fetch_data, hurl, Bool.false_eq_true, if_false, hr]
  cases ht : truthy data with
  | false => simp [ht]
  | true => simp [ht, hx, truthy]

/-- C7 counterexample: for the filename `"x.mp3.mp3"` the derived name is
returned unchanged and ends in two `.mp3` suffixes, so "ends in exactly one
`.mp3` suffix for every filename" fails. -/
theorem derive_filename_double_extension :
    derive_filename (some "x.mp3.mp3") 0 = "x.mp3.mp3" ∧
    str_endswith "x.mp3.mp3" ".mp3.mp3" = true := by
  constructor
  · decide
  · decide

/-- C7 amended: the derived output name always ends in `.mp3` (appended only
when not already present), is independent of the timestamp for a non-empty
given filename (same filename twice yields the same artifact path), the
derivation is idempotent (re-deriving from a derived name never appends a
second extension), and a missing filename is derived from the timestamp. -/
theorem derive_filename_naming (f : String) (ts ts' : Nat) (h : f ≠ "") :
    str_endswith (derive_filename (some f) ts) ".mp3" = true ∧
    derive_filename (some f) ts = derive_filename (some f) ts' ∧
    derive_filename (some (derive_filename (some f) ts)) ts' =
      derive_filename (some f) ts ∧
    derive_filename none ts =
      derive_filename (some ("tts_output_" ++ toString ts)) ts := by
  have hf : (f == "") = false := by simp [h]
  have hend : str_endswith (derive_filename (some f) ts) ".mp3" = true := by
    simp only [derive_filename, hf, Bool.false_eq_true, if_false]
    cases he : str_endswith f ".mp3" with
    | true => simp [he]
    | false => simp only [he, Bool.false_eq_true, if_false]; exact endswith_append f ".mp3"
  refine ⟨hend, ?_, ?_, ?_⟩
  · simp only [derive_filename, hf, Bool.false_eq_true, if_false]
  · have hd1 : derive_filename (some f) ts ≠ "" := by
      intro hdd
      rw [hdd] at hend
      exact absurd hend (by decide)
    have hd2 : (derive_filename (some f) ts == "") = false := by simp [hd1]
    conv_lhs => rw [derive_filename]
    simp only [hd2, Bool.false_eq_true, if_false, hend, if_true]
  · have hne : ("tts_output_" ++ toString ts) ≠ "" := by
      intro hc
      have hl := congrArg String.length hc
      rw [String.length_append] at hl
      have h11 : ("tts_output_" : String).length = 11 := by decide
      have h0 : ("" : String).length = 0 := by decide
      rw [h11, h0] at hl
      omega
    have hne2 : (("tts_output_" ++ toString ts) == "") = false := by simp [hne]
    simp only [derive_filename, hne2, Bool.false_eq_true, if_false]

/-- Witness for the amended C7 theorem at the filename `"name"`. -/
theorem derive_filename_naming_witness :
    str_endswith (derive_filename (some "name") 1) ".mp3" = true ∧
    derive_filename (some "name") 1 = derive_filename (some "name") 2 ∧
    derive_filename (some (derive_filename (some "name") 1)) 2 =
      derive_filename (some "name") 1 ∧
    derive_filename none 1 =
      derive_filename (some ("tts_output_" ++ toString 1)) 1 :=
  derive_filename_naming "name" 1 2 (by decide)

/-- C10: `fetch_data` raises `ValueError` precisely when both the
call-argument URL and the constructor URL are falsy; with a usable URL it
never raises, returning the decoded body on success and `None` on a caught
request failure. -/
theorem fetch_data_valueError_iff (s a : Option String) (r : Option JSONValue) :
    (fetch_data s a r = .error .valueError ↔
      strFalsy a = true ∧ strFalsy s = true) ∧
    (strFalsy a = false ∨ strFalsy s = false → fetch_data s a r = .ok r) := by
  cases ha : strFalsy a <;> cases hs : strFalsy s <;>
    simp [fetch_data, py_or, ha, hs]

/-- Witness for the C10 theorem: a constructor-supplied URL with no call
argument yields the request outcome. -/
theorem fetch_data_valueError_iff_witness :
    fetch_data (some "http://u") none (some (.str "x")) = .ok (some (.str "x")) :=
  (fetch_data_valueError_iff (some "http://u") none (some (.str "x"))).2
    (Or.inr (by decide))

/-- C3 counterexample: a fetch failure and an empty extraction produce the
identical pipeline return value (`None`, no synthesis, no playback): the two
failure outcomes are not distinguishable to the caller. -/
theorem pipeline_failures_indistinguishable :
    process_pipeline ⟨some "http://api", none, none, "audio_output", "text",
      some "out", 0, true, true, true⟩ = .ok ⟨none, false, none⟩ ∧
    process_pipeline ⟨some "http://api", none,
      some (.obj [("other", .str "y")]), "audio_output", "text",
      some "out", 0, true, true, true⟩ = .ok ⟨none, false, none⟩ := by
  constructor
  · rfl
  · rfl

/-- C3 amended: both failure modes short-circuit — a fetch failure returns
`None` with no synthesis call, and an empty extraction returns `None` with
no synthesis call — but the two returns are the same `None` value,
distinguishable only in log output, not to the caller. -/
theorem pipeline_short_circuit (env : PipelineEnv)
    (hurl : strFalsy (py_or env.api_url env.self_api_url) = false) :
    (env.requestResult = none → process_pipeline env = .ok ⟨none, false, none⟩) ∧
    ∀ data, env.requestResult = some data →
      extract_text data env.text_key = .ok (.str "") →
      process_pipeline env = .ok ⟨none, false, none⟩ := by
  constructor
  · intro hr
    exact pipeline_fetch_fail_aux env hurl hr
  · intro data hr hx
    exact pipeline_empty_text_aux env data hurl hr hx

/-- Witness for the C3 amended theorem: both short-circuits at concrete
environments. -/
theorem pipeline_short_circuit_witness :
    process_pipeline ⟨some "http://news", none, none, "out_dir", "body",
      some "a", 3, true, true, true⟩ = .ok ⟨none, false, none⟩ ∧
    process_pipeline ⟨some "http://news", none, some (.obj [("k", .str "v")]),
      "out_dir", "body", some "a", 3, true, true, true⟩ =
      .ok ⟨none, false, none⟩ :=
  ⟨(pipeline_short_circuit ⟨some "http://news", none, none, "out_dir", "body",
      some "a", 3, true, true, true⟩ (by decide)).1 rfl,
    (pipeline_short_circuit ⟨some "http://news", none,
      some (.obj [("k", .str "v")]), "out_dir", "body", some "a", 3, true,
      true, true⟩ (by decide)).2 (.obj [("k", .str "v")]) rfl rfl⟩

end TTS

namespace TTS

/-- C8: a synthesis artifact only arises from non-empty text — direct
synthesis on the empty string (or any falsy text) returns `None`, and a
pipeline whose extraction yields the empty string returns `None` without
calling synthesis. -/
theorem synthesis_requires_nonempty_text :
    (∀ d fo ts sOk, text_to_speech d (.str "") fo ts sOk = none) ∧
    (∀ d t fo ts sOk, truthy t = false → text_to_speech d t fo ts sOk = none) ∧
    ∀ env data, strFalsy (py_or env.api_url env.self_api_url) = false →
      env.requestResult = some data →
      extract_text data env.text_key = .ok (.str "") →
      process_pipeline env = .ok ⟨none, false, none⟩ := by
  refine ⟨fun d fo ts sOk => rfl, fun d t fo ts sOk h => ?_,
    fun env data hurl hr hx => pipeline_empty_text_aux env data hurl hr hx⟩
  simp [text_to_speech, h]

/-- Witness for the C8 theorem: falsy text and an empty-extraction pipeline,
both yielding `None`. -/
theorem synthesis_requires_nonempty_text_witness :
    truthy (.num 0) = false ∧
    text_to_speech "audio_output" (.num 0) (some "f") 0 true = none ∧
    process_pipeline ⟨some "http://x", none, some (.obj [("k", .num 1)]),
      "audio_output", "text", none, 0, true, true, true⟩ =
      .ok ⟨none, false, none⟩ :=
  ⟨rfl, synthesis_requires_nonempty_text.2.1 "audio_output" (.num 0)
      (some "f") 0 true rfl,
    synthesis_requires_nonempty_text.2.2 ⟨some "http://x", none,
      some (.obj [("k", .num 1)]), "audio_output", "text", none, 0, true,
      true, true⟩ (.obj [("k", .num 1)]) (by decide) rfl rfl⟩

/-- C9: once synthesis has produced an audio file, the pipeline returns that
file's path whatever the playback oracle says — the artifact path in the
return value is the same for playback success and playback failure. -/
theorem playback_failure_preserves_artifact (env : PipelineEnv)
    (data : JSONValue) (s : String)
    (hurl : strFalsy (py_or env.api_url env.self_api_url) = false)
    (hr : env.requestResult = some data)
    (hx : extract_text data env.text_key = .ok (.str s))
    (hs : s ≠ "") (hsynth : env.synthOk = true) (b : Bool) :
    ∃ st, process_pipeline (setPlayback env b) =
      .ok ⟨some (path_join env.output_dir
        (derive_filename env.output_filename env.timestamp)), true, st⟩ := by
  have htr : truthy data = true := by
    cases ht : truthy data with
    | true => rfl
    | false =>
      have h0 := extract_text_falsy data env.text_key ht
      rw [h0] at hx
      injection hx with h1
      injection h1 with h2
      exact absurd h2.symm hs
  have hts : truthy (JSONValue.str s) = true := by simp [truthy, hs]
  simp only [process_pipeline, setPlayback, fetch_data, hurl,
    Bool.false_eq_true, if_false, hr, htr, Bool.true_eq_false, hx, hts,
    print_excerpt, text_to_speech, hsynth, if_true]
  cases hg : ((path_join env.output_dir
      (derive_filename env.output_filename env.timestamp) != "") &&
      env.savedFileExists) with
  | true => exact ⟨some (play_audio true b), by simp [hg]⟩
  | false => exact ⟨none, by simp [hg]⟩

/-- Witness for the C9 theorem: with a failing playback (`b = false`) the
pipeline still returns the synthesized artifact path. -/
theorem playback_failure_preserves_artifact_witness :
    ∃ st, process_pipeline (setPlayback ⟨some "http://x", none,
      some (.obj [("text", .str "hello")]), "audio_output", "text",
      some "out", 0, true, true, true⟩ false) =
      .ok ⟨some (path_join "audio_output" (derive_filename (some "out") 0)),
        true, st⟩ :=
  playback_failure_preserves_artifact ⟨some "http://x", none,
    some (.obj [("text", .str "hello")]), "audio_output", "text",
    some "out", 0, true, true, true⟩ (.obj [("text", .str "hello")]) "hello"
    (by decide) rfl rfl (by decide) rfl false

end TTS
